import Mathlib

/-!
Shallow embedding of the DHT22/AM2302 sensor driver (`src/dht22.c`,
`src/dht22.h`) for the environment-monitoring repository.

Modelling conventions:
* C `float` values are modelled as exact rationals (`ℚ`); the driver's
  arithmetic (`raw * 0.1`, comparisons against `0.0`, `100.0`, `-40.0`,
  `80.0`) is carried out exactly.
* `uint8_t` / `uint32_t` values are `Nat` with explicit `% 256` / `% 2^32`
  where C truncation happens.
* The hardware (GPIO line, clocks, sleeps) is an explicit environment:
  each call to `wait_for_pin_state` either succeeds or times out as the
  environment dictates, and every hardware side effect is recorded in a
  trace of `HwEvent`s, in program order.
* The caller's output slots (`*temperature`, `*humidity`) are passed in and
  returned, so that which writes happen on which paths is observable.
-/

/-- Return codes from `dht22.h`. -/
def DHT22_OK : Int := 0

/-- `DHT22_ERROR_CHECKSUM` from `dht22.h`. -/
def DHT22_ERROR_CHECKSUM : Int := -1

/-- `DHT22_ERROR_TIMEOUT` from `dht22.h`. -/
def DHT22_ERROR_TIMEOUT : Int := -2

/-- `DHT22_ERROR_INVALID_DATA` from `dht22.h`. -/
def DHT22_ERROR_INVALID_DATA : Int := -3

/-- `DHT22_ERROR_NOT_INITIALIZED` from `dht22.h`. -/
def DHT22_ERROR_NOT_INITIALIZED : Int := -4

/-- `DHT22_START_SIGNAL_DELAY` (µs). -/
def DHT22_START_SIGNAL_DELAY : Nat := 18000

/-- `DHT22_RESPONSE_WAIT_TIMEOUT` (µs). -/
def DHT22_RESPONSE_WAIT_TIMEOUT : Nat := 200

/-- `DHT22_BIT_THRESHOLD` (µs): strict cutoff between bit 0 and bit 1. -/
def DHT22_BIT_THRESHOLD : Nat := 50

/-- `DHT22_MIN_INTERVAL_MS`: minimum interval between reads (ms). -/
def DHT22_MIN_INTERVAL_MS : Nat := 2000

/-- `dht22_state_t`: the driver's global state. `last_read_time_ms = 0`
encodes the `NeverRead` pacing state (the code's `!= 0` guard). -/
structure Dht22State where
  last_read_time_ms : Nat
  pin : Nat
  initialized : Bool
deriving DecidableEq

/-- Hardware side effects, in program order, as the C driver performs them. -/
inductive HwEvent where
  /-- `gpio_init(pin)` -/
  | initPin (pin : Nat)
  /-- `gpio_set_pulls(pin, up, down)` -/
  | setPulls (pin : Nat) (up down : Bool)
  /-- `gpio_set_dir(pin, out)` -/
  | setDir (pin : Nat) (out : Bool)
  /-- `gpio_put(pin, value)` -/
  | putPin (pin : Nat) (value : Bool)
  /-- `sleep_us(us)` -/
  | sleepUs (us : Nat)
  /-- a `wait_for_pin_state(pin, state, _)` busy-poll -/
  | waitPin (pin : Nat) (state : Bool)
  /-- `sleep_ms(ms)` -/
  | sleepMs (ms : Nat)
deriving DecidableEq

/-- Environment outcome of one iteration of the 40-bit capture loop:
the wait-for-high edge can time out, the wait-for-low edge can time out,
or a high pulse of `us` microseconds is measured. -/
inductive BitOutcome where
  | riseTimeout
  | fallTimeout
  | pulse (us : Nat)
deriving DecidableEq

/-- `BitOutcome.pulse`-shaped outcomes, i.e. both edge waits succeeded. -/
def BitOutcome.isPulse : BitOutcome → Bool
  | .pulse _ => true
  | _ => false

/-- The hardware environment a single `dht22_read` call runs against:
the value of `to_ms_since_boot` at entry (pacing check) and after data
capture (timestamp update), whether each of the three handshake edge
waits succeeds, and the outcome of each bit-capture iteration. -/
structure Dht22Env where
  entry_time_ms : Nat
  ack0 : Bool
  ack1 : Bool
  ack2 : Bool
  bits : Nat → BitOutcome
  post_time_ms : Nat

/-- `dht22_init`: configures the GPIO, stores the pin, clears the pacing
timestamp, and marks the driver initialized. Returns `DHT22_OK`. -/
def dht22_init (pin : Nat) (st : Dht22State) : Int × Dht22State × List HwEvent :=
  (DHT22_OK,
   { st with pin := pin, last_read_time_ms := 0, initialized := true },
   [.initPin pin, .setPulls pin true false])

/-- `dht22_send_start_signal`: drives the line low for 18 ms, high for
30 µs, then releases it to input mode. Always returns `DHT22_OK`. -/
def dht22_send_start_signal (pin : Nat) : Int × List HwEvent :=
  (DHT22_OK,
   [.setDir pin true, .putPin pin false, .sleepUs DHT22_START_SIGNAL_DELAY,
    .putPin pin true, .sleepUs 30, .setDir pin false])

/-- `dht22_wait_for_response`: three edge waits (low, high, low); the first
one that times out aborts with `DHT22_ERROR_TIMEOUT`. The environment
booleans say whether each wait observes its edge in time. -/
def dht22_wait_for_response (pin : Nat) (w0 w1 w2 : Bool) : Int × List HwEvent :=
  if !w0 then (DHT22_ERROR_TIMEOUT, [.waitPin pin false])
  else if !w1 then (DHT22_ERROR_TIMEOUT, [.waitPin pin false, .waitPin pin true])
  else if !w2 then
    (DHT22_ERROR_TIMEOUT, [.waitPin pin false, .waitPin pin true, .waitPin pin false])
  else (DHT22_OK, [.waitPin pin false, .waitPin pin true, .waitPin pin false])

/-- Body of the `for (int i = 0; i < 40; i++)` loop of `dht22_read_data`,
with `fuel = 40 - i` making the loop structurally recursive. Each
iteration waits for the rising edge, measures the high pulse, waits for
the falling edge, and ORs bit `7 - i % 8` into `data[i / 8]` when the
pulse is strictly longer than `DHT22_BIT_THRESHOLD`. -/
def dht22_read_data_go (pin : Nat) (env : Nat → BitOutcome) :
    Nat → Nat → List Nat → List HwEvent → Int × List Nat × List HwEvent
  | 0, _, data, trace => (DHT22_OK, data, trace)
  | fuel + 1, i, data, trace =>
    match env i with
    | .riseTimeout => (DHT22_ERROR_TIMEOUT, data, trace ++ [.waitPin pin true])
    | .fallTimeout =>
        (DHT22_ERROR_TIMEOUT, data, trace ++ [.waitPin pin true, .waitPin pin false])
    | .pulse us =>
        dht22_read_data_go pin env fuel (i + 1)
          (if DHT22_BIT_THRESHOLD < us then
             data.set (i / 8) ((data.getD (i / 8) 0) ||| (1 <<< (7 - i % 8)))
           else data)
          (trace ++ [.waitPin pin true, .waitPin pin false])

/-- `dht22_read_data`: captures the 40-bit frame into the 5-byte buffer. -/
def dht22_read_data (pin : Nat) (env : Nat → BitOutcome) (data : List Nat) :
    Int × List Nat × List HwEvent :=
  dht22_read_data_go pin env 40 0 data []

/-- `dht22_verify_checksum`: the `uint8_t` sum of bytes 0..3 (truncated
mod 256) must equal byte 4. -/
def dht22_verify_checksum (data : List Nat) : Int :=
  let checksum := (data.getD 0 0 + data.getD 1 0 + data.getD 2 0 + data.getD 3 0) % 256
  if checksum ≠ data.getD 4 0 then DHT22_ERROR_CHECKSUM else DHT22_OK

/-- `dht22_convert_data`: writes both output slots (humidity from bytes
0..1, signed temperature from bytes 2..3), then range-checks the written
values. Note the writes happen before the range check, exactly as in the
C source. Returns (status, temperature slot, humidity slot). -/
def dht22_convert_data (data : List Nat) (temperature humidity : ℚ) :
    Int × ℚ × ℚ :=
  let humidity : ℚ := ((((data.getD 0 0) <<< 8) ||| data.getD 1 0 : Nat) : ℚ) * (1/10)
  let temperature : ℚ :=
    (((((data.getD 2 0) &&& 0x7F) <<< 8) ||| data.getD 3 0 : Nat) : ℚ) * (1/10)
  let temperature : ℚ :=
    if (data.getD 2 0) &&& 0x80 ≠ 0 then -temperature else temperature
  if humidity < 0 ∨ humidity > 100 ∨ temperature < -40 ∨ temperature > 80 then
    (DHT22_ERROR_INVALID_DATA, temperature, humidity)
  else
    (DHT22_OK, temperature, humidity)

/-- Result of a `dht22_read` call: the returned status, the driver state
after the call, the caller's two output slots after the call, and the
trace of hardware side effects performed. -/
structure ReadResult where
  status : Int
  state : Dht22State
  temperature : ℚ
  humidity : ℚ
  trace : List HwEvent
deriving DecidableEq

/-- `dht22_read`: the full read sequence. Checks initialization, applies
the pacing gate (`uint32_t` subtraction, `last_read_time_ms != 0` guard),
sends the start signal, awaits the handshake, captures 40 bits, updates
the pacing timestamp, verifies the checksum, converts. The caller's
slots `temperature`/`humidity` are passed in so the write behaviour on
each path is visible. -/
def dht22_read (st : Dht22State) (env : Dht22Env) (temperature humidity : ℚ) :
    ReadResult :=
  if !st.initialized then
    ⟨DHT22_ERROR_NOT_INITIALIZED, st, temperature, humidity, []⟩
  else
    let current_time := env.entry_time_ms % 2 ^ 32
    let elapsed := (current_time + 2 ^ 32 - st.last_read_time_ms) % 2 ^ 32
    let pacing : List HwEvent :=
      if elapsed < DHT22_MIN_INTERVAL_MS ∧ st.last_read_time_ms ≠ 0 then
        [.sleepMs (DHT22_MIN_INTERVAL_MS - elapsed)]
      else []
    let r1 := dht22_send_start_signal st.pin
    if r1.1 ≠ DHT22_OK then ⟨r1.1, st, temperature, humidity, pacing ++ r1.2⟩
    else
      let r2 := dht22_wait_for_response st.pin env.ack0 env.ack1 env.ack2
      if r2.1 ≠ DHT22_OK then
        ⟨r2.1, st, temperature, humidity, pacing ++ r1.2 ++ r2.2⟩
      else
        let r3 := dht22_read_data st.pin env.bits [0, 0, 0, 0, 0]
        let trace := pacing ++ r1.2 ++ r2.2 ++ r3.2.2
        if r3.1 ≠ DHT22_OK then ⟨r3.1, st, temperature, humidity, trace⟩
        else
          let st' := { st with last_read_time_ms := env.post_time_ms % 2 ^ 32 }
          let r4 := dht22_verify_checksum r3.2.1
          if r4 ≠ DHT22_OK then ⟨r4, st', temperature, humidity, trace⟩
          else
            let r5 := dht22_convert_data r3.2.1 temperature humidity
            ⟨r5.1, st', r5.2.1, r5.2.2, trace⟩

/-- Bit `j` of a captured frame: bit `7 - j % 8` of byte `j / 8`
(most-significant-bit-first packing). -/
def frameBit (data : List Nat) (j : Nat) : Bool :=
  (data.getD (j / 8) 0).testBit (7 - j % 8)

/-- Arithmetic form of the humidity conversion: the big-endian 16-bit
value of bytes 0..1, divided by 10. -/
def humidityOfFrame (data : List Nat) : ℚ :=
  ((256 * data.getD 0 0 + data.getD 1 0 : Nat) : ℚ) / 10

/-- Arithmetic form of the temperature conversion: the big-endian 14-bit
magnitude from byte 2 (masked to 7 bits) and byte 3, divided by 10,
negated exactly when bit 7 of byte 2 is set. -/
def temperatureOfFrame (data : List Nat) : ℚ :=
  (if 128 ≤ data.getD 2 0 then -1 else 1) *
    (((256 * (data.getD 2 0 % 128) + data.getD 3 0 : Nat) : ℚ) / 10)

/-- Pulse durations encoding a given 5-byte frame on the wire:
70 µs for a 1 bit, 28 µs for a 0 bit. -/
def pulsesOfFrame (b0 b1 b2 b3 b4 : Nat) (j : Nat) : BitOutcome :=
  .pulse (if frameBit [b0, b1, b2, b3, b4] j then 70 else 28)

/-- A fully successful hardware environment transmitting the given frame. -/
def envOfFrame (b0 b1 b2 b3 b4 : Nat) (entry post : Nat) : Dht22Env :=
  ⟨entry, true, true, true, pulsesOfFrame b0 b1 b2 b3 b4, post⟩

/-- Distinct bit indices occupy distinct (byte, bit-in-byte) positions. -/
theorem bit_index_inj {i j : Nat} (hdiv : i / 8 = j / 8)
    (hmod : 7 - i % 8 = 7 - j % 8) : i = j := by
  omega

/-- Setting bit `i` of the frame buffer sets `frameBit · i` and leaves every
other frame bit unchanged. -/
theorem frameBit_update (data : List Nat) (i j : Nat) (hlen : data.length = 5)
    (hi : i < 40) :
    frameBit (data.set (i / 8) ((data.getD (i / 8) 0) ||| (1 <<< (7 - i % 8)))) j =
      (frameBit data j || decide (i = j)) := by
  have hi8 : i / 8 < data.length := by omega
  unfold frameBit
  rcases eq_or_ne (i / 8) (j / 8) with hdj | hdj
  · rw [List.getD_eq_getElem?_getD, ← hdj, List.getElem?_set_eq_of_lt _ hi8]
    simp only [Option.getD_some]
    rw [Nat.testBit_lor]
    have h1 : (1 : Nat) <<< (7 - i % 8) = 2 ^ (7 - i % 8) := by
      rw [Nat.shiftLeft_eq, one_mul]
    rw [h1, Nat.testBit_two_pow, hdj]
    congr 1
    rw [decide_eq_decide]
    constructor
    · intro hm; exact bit_index_inj hdj hm
    · intro hm; rw [hm]
  · rw [List.getD_eq_getElem?_getD, List.getElem?_set_ne hdj,
      ← List.getD_eq_getElem?_getD]
    have hij : decide (i = j) = false := by
      simp only [decide_eq_false_iff_not]
      intro h; exact hdj (by rw [h])
    rw [hij, Bool.or_false]

/-- Setting a frame bit keeps every byte of the buffer below 256. -/
theorem set_keeps_bytes_lt (data : List Nat) (i : Nat) (hlen : data.length = 5)
    (hi : i < 40) (hbound : ∀ k, k < 5 → data.getD k 0 < 256) :
    ∀ k, k < 5 →
      (data.set (i / 8) ((data.getD (i / 8) 0) ||| (1 <<< (7 - i % 8)))).getD k 0 < 256 := by
  intro k hk
  have hpow : (1 : Nat) <<< (7 - i % 8) < 256 := by
    rw [Nat.shiftLeft_eq, one_mul]
    calc (2 : Nat) ^ (7 - i % 8) ≤ 2 ^ 7 := Nat.pow_le_pow_right (by norm_num) (by omega)
    _ < 256 := by norm_num
  rcases eq_or_ne (i / 8) k with hik | hik
  · subst hik
    rw [List.getD_eq_getElem?_getD, List.getElem?_set_eq_of_lt _ (by omega)]
    simp only [Option.getD_some]
    have h256 : (256 : Nat) = 2 ^ 8 := by norm_num
    rw [h256] at hpow ⊢
    exact Nat.or_lt_two_pow (h256 ▸ hbound (i / 8) (by omega)) hpow
  · rw [List.getD_eq_getElem?_getD, List.getElem?_set_ne hik,
      ← List.getD_eq_getElem?_getD]
    exact hbound k hk

/-- Full characterization of the 40-bit capture loop on an all-pulses
environment: it succeeds, the buffer stays 5 bytes below 256, bits before
the loop counter are preserved and every remaining bit `j` becomes 1
exactly when the `j`-th pulse is strictly above the threshold. -/
theorem dht22_read_data_go_spec (pin : Nat) (env : Nat → BitOutcome) (d : Nat → Nat)
    (henv : ∀ j, env j = .pulse (d j)) :
    ∀ fuel i data trace, i + fuel = 40 → data.length = 5 →
      (∀ k, k < 5 → data.getD k 0 < 256) →
      (∀ j, i ≤ j → j < 40 → frameBit data j = false) →
      (dht22_read_data_go pin env fuel i data trace).1 = DHT22_OK ∧
      (dht22_read_data_go pin env fuel i data trace).2.1.length = 5 ∧
      (∀ k, k < 5 → (dht22_read_data_go pin env fuel i data trace).2.1.getD k 0 < 256) ∧
      (∀ j, j < 40 →
        frameBit (dht22_read_data_go pin env fuel i data trace).2.1 j =
          if j < i then frameBit data j
          else decide (DHT22_BIT_THRESHOLD < d j)) := by
  intro fuel
  induction fuel with
  | zero =>
    intro i data trace hif hlen hbound hbits
    refine ⟨rfl, hlen, hbound, fun j hj => ?_⟩
    rw [if_pos (show j < i by omega)]
    rfl
  | succ fuel ih =>
    intro i data trace hif hlen hbound hbits
    have hi40 : i < 40 := by omega
    rw [dht22_read_data_go, henv i]
    simp only []
    by_cases hth : DHT22_BIT_THRESHOLD < d i
    · rw [if_pos hth]
      have hlen' : (data.set (i / 8)
          ((data.getD (i / 8) 0) ||| (1 <<< (7 - i % 8)))).length = 5 := by
        rw [List.length_set]; exact hlen
      have hbits' : ∀ j, i + 1 ≤ j → j < 40 →
          frameBit (data.set (i / 8)
            ((data.getD (i / 8) 0) ||| (1 <<< (7 - i % 8)))) j = false := by
        intro j hj hj40
        rw [frameBit_update data i j hlen hi40, hbits j (by omega) hj40]
        simp only [Bool.false_or, decide_eq_false_iff_not]
        omega
      obtain ⟨h1, h2, h3, h4⟩ := ih (i + 1) _ _ (by omega) hlen'
        (set_keeps_bytes_lt data i hlen hi40 hbound) hbits'
      refine ⟨h1, h2, h3, fun j hj => ?_⟩
      rw [h4 j hj]
      rcases Nat.lt_trichotomy j i with hji | hji
      · rw [if_pos (by omega), if_pos hji,
          frameBit_update data i j hlen hi40]
        have : decide (i = j) = false := by
          simp only [decide_eq_false_iff_not]; omega
        rw [this, Bool.or_false]
      · rcases hji with hji | hji
        · subst hji
          rw [if_pos (by omega), if_neg (by omega),
            frameBit_update data j j hlen hi40]
          simp [hth]
        · rw [if_neg (by omega), if_neg (by omega)]
    · rw [if_neg hth]
      have hbits' : ∀ j, i + 1 ≤ j → j < 40 → frameBit data j = false :=
        fun j hj hj40 => hbits j (by omega) hj40
      obtain ⟨h1, h2, h3, h4⟩ := ih (i + 1) _ _ (by omega) hlen hbound hbits'
      refine ⟨h1, h2, h3, fun j hj => ?_⟩
      rw [h4 j hj]
      rcases Nat.lt_trichotomy j i with hji | hji
      · rw [if_pos (by omega), if_pos hji]
      · rcases hji with hji | hji
        · subst hji
          rw [if_pos (by omega), if_neg (by omega), hbits j (by omega) hj]
          simp [hth]
        · rw [if_neg (by omega), if_neg (by omega)]

/-- Every slot of the zeroed capture buffer reads 0. -/
theorem getD_zeros (n : Nat) : List.getD [0, 0, 0, 0, 0] n 0 = 0 := by
  rcases Nat.lt_or_ge n 5 with h | h
  · interval_cases n <;> rfl
  · rw [List.getD_eq_getElem?_getD, List.getElem?_eq_none (by simpa using h)]
    rfl

/-- `dht22_read_data` on an all-pulses environment: succeeds, returns a
5-byte frame with every byte below 256, and frame bit `j` is 1 exactly
when the `j`-th pulse is strictly above the 50 µs threshold. -/
theorem dht22_read_data_spec (pin : Nat) (env : Nat → BitOutcome) (d : Nat → Nat)
    (henv : ∀ j, env j = .pulse (d j)) :
    (dht22_read_data pin env [0, 0, 0, 0, 0]).1 = DHT22_OK ∧
    (dht22_read_data pin env [0, 0, 0, 0, 0]).2.1.length = 5 ∧
    (∀ k, k < 5 → (dht22_read_data pin env [0, 0, 0, 0, 0]).2.1.getD k 0 < 256) ∧
    (∀ j, j < 40 →
      frameBit (dht22_read_data pin env [0, 0, 0, 0, 0]).2.1 j =
        decide (DHT22_BIT_THRESHOLD < d j)) := by
  have hzb : ∀ j, (0 : Nat) ≤ j → j < 40 → frameBit [0, 0, 0, 0, 0] j = false := by
    intro j _ _
    unfold frameBit
    rw [getD_zeros, Nat.zero_testBit]
  obtain ⟨h1, h2, h3, h4⟩ := dht22_read_data_go_spec pin env d henv 40 0 [0, 0, 0, 0, 0] []
    rfl rfl (fun k hk => by rw [getD_zeros]; norm_num) hzb
  refine ⟨h1, h2, h3, fun j hj => ?_⟩
  rw [show dht22_read_data pin env [0, 0, 0, 0, 0] =
        dht22_read_data_go pin env 40 0 [0, 0, 0, 0, 0] [] from rfl,
    h4 j hj, if_neg (by omega)]

/-- A frame fed to the decoder through `pulsesOfFrame` is captured
verbatim: the decoder reconstructs exactly the 5 source bytes. -/
theorem dht22_read_data_captures (pin b0 b1 b2 b3 b4 : Nat)
    (h0 : b0 < 256) (h1 : b1 < 256) (h2 : b2 < 256) (h3 : b3 < 256) (h4 : b4 < 256) :
    (dht22_read_data pin (pulsesOfFrame b0 b1 b2 b3 b4) [0, 0, 0, 0, 0]).1 = DHT22_OK ∧
    (dht22_read_data pin (pulsesOfFrame b0 b1 b2 b3 b4) [0, 0, 0, 0, 0]).2.1 =
      [b0, b1, b2, b3, b4] := by
  obtain ⟨hs, hlen, hbound, hbits⟩ :=
    dht22_read_data_spec pin (pulsesOfFrame b0 b1 b2 b3 b4)
      (fun j => if frameBit [b0, b1, b2, b3, b4] j then 70 else 28)
      (fun j => rfl)
  refine ⟨hs, ?_⟩
  have hbits' : ∀ j, j < 40 →
      frameBit (dht22_read_data pin (pulsesOfFrame b0 b1 b2 b3 b4) [0, 0, 0, 0, 0]).2.1 j =
        frameBit [b0, b1, b2, b3, b4] j := by
    intro j hj
    rw [hbits j hj]
    by_cases hb : frameBit [b0, b1, b2, b3, b4] j
    · rw [hb, if_pos rfl]
      decide
    · rw [Bool.eq_false_iff.mpr hb, if_neg (by simpa using hb)]
      decide
  have hBlen : ([b0, b1, b2, b3, b4] : List Nat).length = 5 := rfl
  have hBbound : ∀ k, k < 5 → ([b0, b1, b2, b3, b4] : List Nat).getD k 0 < 256 := by
    intro k hk
    interval_cases k <;> simpa [List.getD]
  apply List.ext_getElem (by rw [hlen, hBlen])
  intro n hn1 hn2
  have hn5 : n < 5 := by omega
  have hout : (dht22_read_data pin (pulsesOfFrame b0 b1 b2 b3 b4) [0, 0, 0, 0, 0]).2.1.getD n 0 =
      ([b0, b1, b2, b3, b4] : List Nat).getD n 0 := by
    apply Nat.eq_of_testBit_eq
    intro m
    rcases Nat.lt_or_ge m 8 with hm | hm
    · have hj : 8 * n + (7 - m) < 40 := by omega
      have hdiv : (8 * n + (7 - m)) / 8 = n := by omega
      have hmod : 7 - (8 * n + (7 - m)) % 8 = m := by omega
      have hfb := hbits' (8 * n + (7 - m)) hj
      unfold frameBit at hfb
      rw [hdiv, hmod] at hfb
      exact hfb
    · have hple : (256 : Nat) ≤ 2 ^ m := by
        calc (256 : Nat) = 2 ^ 8 := by norm_num
        _ ≤ 2 ^ m := Nat.pow_le_pow_right (by norm_num) hm
      rw [Nat.testBit_lt_two_pow (lt_of_lt_of_le (hbound n hn5) hple),
        Nat.testBit_lt_two_pow (lt_of_lt_of_le (hBbound n hn5) hple)]
  rw [List.getD_eq_getElem?_getD, List.getD_eq_getElem?_getD,
    List.getElem?_eq_getElem hn1, List.getElem?_eq_getElem hn2] at hout
  simpa using hout

/-- If any bit in the remaining iterations suffers an edge timeout, the
capture loop reports `DHT22_ERROR_TIMEOUT`. -/
theorem dht22_read_data_go_timeout (pin : Nat) (env : Nat → BitOutcome) :
    ∀ fuel i data trace, (∃ j, i ≤ j ∧ j < i + fuel ∧ (env j).isPulse = false) →
      (dht22_read_data_go pin env fuel i data trace).1 = DHT22_ERROR_TIMEOUT := by
  intro fuel
  induction fuel with
  | zero =>
    rintro i data trace ⟨j, hj1, hj2, _⟩
    omega
  | succ fuel ih =>
    rintro i data trace ⟨j, hj1, hj2, hjp⟩
    rcases hE : env i with _ | _ | us
    · rw [dht22_read_data_go, hE]
    · rw [dht22_read_data_go, hE]
    · rw [dht22_read_data_go, hE]
      apply ih
      refine ⟨j, ?_, by omega, hjp⟩
      rcases Nat.eq_or_lt_of_le hj1 with he | hl
      · exfalso
        rw [← he, hE] at hjp
        simp [BitOutcome.isPulse] at hjp
      · omega

/-- A handshake edge timeout aborts the read with `DHT22_ERROR_TIMEOUT`,
leaving the driver state and both caller slots untouched. -/
theorem dht22_read_ack_timeout (st : Dht22State) (env : Dht22Env) (t h : ℚ)
    (hinit : st.initialized = true)
    (hack : env.ack0 = false ∨ env.ack1 = false ∨ env.ack2 = false) :
    (dht22_read st env t h).status = DHT22_ERROR_TIMEOUT ∧
    (dht22_read st env t h).state = st ∧
    (dht22_read st env t h).temperature = t ∧
    (dht22_read st env t h).humidity = h := by
  unfold dht22_read
  rw [hinit]
  rcases ha0 : env.ack0 <;> rcases ha1 : env.ack1 <;> rcases ha2 : env.ack2 <;>
    simp_all [dht22_send_start_signal, dht22_wait_for_response,
      DHT22_OK, DHT22_ERROR_TIMEOUT]

/-- A failed capture (some bit edge timed out) surfaces the capture loop's
status and leaves the driver state and both caller slots untouched. -/
theorem dht22_read_capture_fail (st : Dht22State) (env : Dht22Env) (t h : ℚ)
    (hinit : st.initialized = true) (ha0 : env.ack0 = true)
    (ha1 : env.ack1 = true) (ha2 : env.ack2 = true)
    (hfail : (dht22_read_data st.pin env.bits [0, 0, 0, 0, 0]).1 ≠ DHT22_OK) :
    (dht22_read st env t h).status = (dht22_read_data st.pin env.bits [0, 0, 0, 0, 0]).1 ∧
    (dht22_read st env t h).state = st ∧
    (dht22_read st env t h).temperature = t ∧
    (dht22_read st env t h).humidity = h := by
  have hf : ¬((dht22_read_data st.pin env.bits [0, 0, 0, 0, 0]).1 = 0) := by
    simpa [DHT22_OK] using hfail
  unfold dht22_read
  rw [hinit, ha0, ha1, ha2]
  simp [dht22_send_start_signal, dht22_wait_for_response, DHT22_OK, hf]

/-- A successful capture updates the pacing timestamp, then the returned
status and slots are dictated by checksum verification and conversion. -/
theorem dht22_read_capture_ok (st : Dht22State) (env : Dht22Env) (t h : ℚ)
    (hinit : st.initialized = true) (ha0 : env.ack0 = true)
    (ha1 : env.ack1 = true) (ha2 : env.ack2 = true)
    (hok : (dht22_read_data st.pin env.bits [0, 0, 0, 0, 0]).1 = DHT22_OK) :
    (dht22_read st env t h).state =
      { st with last_read_time_ms := env.post_time_ms % 2 ^ 32 } ∧
    (dht22_read st env t h).status =
      (if dht22_verify_checksum (dht22_read_data st.pin env.bits [0, 0, 0, 0, 0]).2.1 ≠
          DHT22_OK then
         dht22_verify_checksum (dht22_read_data st.pin env.bits [0, 0, 0, 0, 0]).2.1
       else (dht22_convert_data (dht22_read_data st.pin env.bits [0, 0, 0, 0, 0]).2.1 t h).1) ∧
    (dht22_read st env t h).temperature =
      (if dht22_verify_checksum (dht22_read_data st.pin env.bits [0, 0, 0, 0, 0]).2.1 ≠
          DHT22_OK then t
       else (dht22_convert_data (dht22_read_data st.pin env.bits [0, 0, 0, 0, 0]).2.1 t h).2.1) ∧
    (dht22_read st env t h).humidity =
      (if dht22_verify_checksum (dht22_read_data st.pin env.bits [0, 0, 0, 0, 0]).2.1 ≠
          DHT22_OK then h
       else (dht22_convert_data (dht22_read_data st.pin env.bits [0, 0, 0, 0, 0]).2.1 t h).2.2) := by
  have hk : (dht22_read_data st.pin env.bits [0, 0, 0, 0, 0]).1 = 0 := by
    simpa [DHT22_OK] using hok
  unfold dht22_read
  rw [hinit, ha0, ha1, ha2]
  by_cases hcs : dht22_verify_checksum (dht22_read_data st.pin env.bits [0, 0, 0, 0, 0]).2.1 = 0 <;>
    simp [dht22_send_start_signal, dht22_wait_for_response, DHT22_OK, hk, hcs]

/-- With the driver initialized, the hardware trace of a read is the
pacing sleep (exactly when the gate blocks, and then for exactly
`2000 − elapsed` ms) followed immediately by the first start-signal
event; no other hardware activity precedes the exchange. -/
theorem dht22_read_trace_shape (st : Dht22State) (env : Dht22Env) (t h : ℚ)
    (hinit : st.initialized = true) :
    ∃ rest, (dht22_read st env t h).trace =
      (if (env.entry_time_ms % 2 ^ 32 + 2 ^ 32 - st.last_read_time_ms) % 2 ^ 32 <
            DHT22_MIN_INTERVAL_MS ∧ st.last_read_time_ms ≠ 0 then
         [HwEvent.sleepMs (DHT22_MIN_INTERVAL_MS -
            (env.entry_time_ms % 2 ^ 32 + 2 ^ 32 - st.last_read_time_ms) % 2 ^ 32)]
       else []) ++ HwEvent.setDir st.pin true :: rest := by
  unfold dht22_read
  rw [hinit]
  by_cases hro : (dht22_read_data st.pin env.bits [0, 0, 0, 0, 0]).1 = 0 <;>
    by_cases hcs : dht22_verify_checksum
      (dht22_read_data st.pin env.bits [0, 0, 0, 0, 0]).2.1 = 0 <;>
    cases ha0 : env.ack0 <;> cases ha1 : env.ack1 <;> cases ha2 : env.ack2 <;>
    exact ⟨_, by simp [dht22_send_start_signal, dht22_wait_for_response,
      DHT22_OK, DHT22_ERROR_TIMEOUT, hro, hcs] <;> rfl⟩

/-- Big-endian packing: shifting a byte left by 8 and ORing a second byte
below 256 is `256 * high + low`. -/
theorem shl8_or_eq (a b : Nat) (hb : b < 256) : (a <<< 8) ||| b = 256 * a + b := by
  rw [Nat.shiftLeft_eq, Nat.mul_comm a (2 ^ 8),
    ← Nat.mul_add_lt_is_or (show b < 2 ^ 8 by norm_num; exact hb) a]

/-- Masking with `0x7F` is reduction mod 128. -/
theorem and_7F_eq_mod (x : Nat) : x &&& 127 = x % 128 := by
  rw [show (127 : Nat) = 2 ^ 7 - 1 by norm_num, Nat.and_pow_two_sub_one_eq_mod]

/-- For a byte, the `0x80` sign test is the comparison `128 ≤ x`. -/
theorem and_80_ne_zero_iff (x : Nat) (hx : x < 256) : (x &&& 128 ≠ 0) ↔ 128 ≤ x := by
  have hx128 : x &&& 128 = (x.testBit 7).toNat * 128 := by
    rw [show (128 : Nat) = 2 ^ 7 by norm_num, Nat.and_two_pow]
  rw [hx128, Nat.testBit_to_div_mod, show (2 : Nat) ^ 7 = 128 by norm_num]
  by_cases hd : x / 128 % 2 = 1
  · simp only [hd, decide_True, Bool.toNat_true, one_mul]
    constructor
    · intro _; omega
    · intro _; norm_num
  · simp only [hd, decide_False, Bool.toNat_false, zero_mul]
    constructor
    · intro hne; exact absurd rfl hne
    · intro hge; exfalso; omega

/-- The driver's conversion arithmetic agrees with the arithmetic
formulas `humidityOfFrame` / `temperatureOfFrame` on byte-valued frames. -/
theorem convert_eq_formula (data : List Nat) (t h : ℚ)
    (hb1 : data.getD 1 0 < 256) (hb2 : data.getD 2 0 < 256)
    (hb3 : data.getD 3 0 < 256) :
    (dht22_convert_data data t h).2.2 = humidityOfFrame data ∧
    (dht22_convert_data data t h).2.1 = temperatureOfFrame data := by
  have hOr1 := shl8_or_eq (data.getD 0 0) (data.getD 1 0) hb1
  have hOr2 := shl8_or_eq (data.getD 2 0 % 128) (data.getD 3 0) hb3
  have e3 := and_80_ne_zero_iff (data.getD 2 0) hb2
  simp only [dht22_convert_data, humidityOfFrame, temperatureOfFrame,
    show (0x7F : Nat) = 127 from rfl, show (0x80 : Nat) = 128 from rfl,
    and_7F_eq_mod, hOr1, hOr2, e3]
  constructor
  · split_ifs <;> · push_cast; ring
  · split_ifs <;> · push_cast; try ring

/-- If every remaining bit sees both edges, the capture loop succeeds. -/
theorem dht22_read_data_go_ok (pin : Nat) (env : Nat → BitOutcome) :
    ∀ fuel i data trace, (∀ j, i ≤ j → j < i + fuel → (env j).isPulse = true) →
      (dht22_read_data_go pin env fuel i data trace).1 = DHT22_OK := by
  intro fuel
  induction fuel with
  | zero => intro i data trace _; rfl
  | succ fuel ih =>
    intro i data trace hp
    rcases hE : env i with _ | _ | us
    · exfalso
      have := hp i (le_refl i) (by omega)
      rw [hE] at this
      simp [BitOutcome.isPulse] at this
    · exfalso
      have := hp i (le_refl i) (by omega)
      rw [hE] at this
      simp [BitOutcome.isPulse] at this
    · rw [dht22_read_data_go, hE]
      exact ih (i + 1) _ _ (fun j hj hj' => hp j (by omega) (by omega))

/-- Projections of `envOfFrame`. -/
theorem envOfFrame_bits (b0 b1 b2 b3 b4 entry post : Nat) :
    (envOfFrame b0 b1 b2 b3 b4 entry post).bits = pulsesOfFrame b0 b1 b2 b3 b4 := rfl

/-- Handshake acknowledgments of `envOfFrame` all succeed. -/
theorem envOfFrame_acks (b0 b1 b2 b3 b4 entry post : Nat) :
    (envOfFrame b0 b1 b2 b3 b4 entry post).ack0 = true ∧
    (envOfFrame b0 b1 b2 b3 b4 entry post).ack1 = true ∧
    (envOfFrame b0 b1 b2 b3 b4 entry post).ack2 = true := ⟨rfl, rfl, rfl⟩

/-- The conversion result, re-expressed through its own slot projections:
the status is determined by the range check on the written values. -/
theorem convert_eq_ite (data : List Nat) (t h : ℚ) :
    dht22_convert_data data t h =
      (if (dht22_convert_data data t h).2.2 < 0 ∨ (dht22_convert_data data t h).2.2 > 100 ∨
          (dht22_convert_data data t h).2.1 < -40 ∨ (dht22_convert_data data t h).2.1 > 80
       then DHT22_ERROR_INVALID_DATA else DHT22_OK,
       (dht22_convert_data data t h).2.1, (dht22_convert_data data t h).2.2) := by
  simp only [dht22_convert_data]
  split_ifs <;> rfl

/-- The humidity slot written by the conversion, in closed form. -/
theorem convert_humidity_eq (data : List Nat) (t h : ℚ) :
    (dht22_convert_data data t h).2.2 =
      ((((data.getD 0 0) <<< 8) ||| data.getD 1 0 : Nat) : ℚ) * (1 / 10) := by
  simp only [dht22_convert_data]
  split_ifs <;> rfl

/-- The conversion status is `DHT22_ERROR_INVALID_DATA` exactly when the
written slots violate the ranges, and `DHT22_OK` exactly otherwise. -/
theorem convert_status_iff (data : List Nat) (t h : ℚ) :
    ((dht22_convert_data data t h).1 = DHT22_ERROR_INVALID_DATA ↔
      ((dht22_convert_data data t h).2.2 < 0 ∨ (dht22_convert_data data t h).2.2 > 100 ∨
       (dht22_convert_data data t h).2.1 < -40 ∨ (dht22_convert_data data t h).2.1 > 80)) ∧
    ((dht22_convert_data data t h).1 = DHT22_OK ↔
      ¬((dht22_convert_data data t h).2.2 < 0 ∨ (dht22_convert_data data t h).2.2 > 100 ∨
        (dht22_convert_data data t h).2.1 < -40 ∨ (dht22_convert_data data t h).2.1 > 80)) := by
  have h1 : (dht22_convert_data data t h).1 =
      (if (dht22_convert_data data t h).2.2 < 0 ∨ (dht22_convert_data data t h).2.2 > 100 ∨
          (dht22_convert_data data t h).2.1 < -40 ∨ (dht22_convert_data data t h).2.1 > 80
       then DHT22_ERROR_INVALID_DATA else DHT22_OK) := by
    conv_lhs => rw [convert_eq_ite data t h]
  by_cases hP : (dht22_convert_data data t h).2.2 < 0 ∨ (dht22_convert_data data t h).2.2 > 100 ∨
      (dht22_convert_data data t h).2.1 < -40 ∨ (dht22_convert_data data t h).2.1 > 80
  · rw [h1, if_pos hP]
    exact ⟨⟨fun _ => hP, fun _ => rfl⟩,
      ⟨fun habs => absurd habs (by simp [DHT22_OK, DHT22_ERROR_INVALID_DATA]),
       fun hn => absurd hP hn⟩⟩
  · rw [h1, if_neg hP]
    exact ⟨⟨fun habs => absurd habs (by simp [DHT22_OK, DHT22_ERROR_INVALID_DATA]),
       fun hp => absurd hp hP⟩, ⟨fun _ => hP, fun _ => rfl⟩⟩

/-- The conversion never reports a checksum error. -/
theorem convert_status_ne_checksum (data : List Nat) (t h : ℚ) :
    (dht22_convert_data data t h).1 ≠ DHT22_ERROR_CHECKSUM := by
  have h1 := convert_eq_ite data t h
  intro habs
  rw [h1] at habs
  revert habs
  split_ifs <;> simp [DHT22_OK, DHT22_ERROR_INVALID_DATA, DHT22_ERROR_CHECKSUM]

/-- Claim C8: a `dht22_read` call while the initialized flag is false
returns `DHT22_ERROR_NOT_INITIALIZED`, performs no hardware I/O (its event
trace is empty), and leaves the driver state and both caller slots
exactly as they were. -/
theorem dht22_read_not_initialized_no_hw (st : Dht22State) (env : Dht22Env)
    (t h : ℚ) (hinit : st.initialized = false) :
    dht22_read st env t h = ⟨DHT22_ERROR_NOT_INITIALIZED, st, t, h, []⟩ := by
  unfold dht22_read
  rw [hinit]
  rfl

/-- Witness for claim C8 at a concrete uninitialized state. -/
theorem dht22_read_not_initialized_no_hw_witness :
    dht22_read ⟨0, 2, false⟩ (envOfFrame 1 144 0 200 89 0 0) 3 4 =
      ⟨DHT22_ERROR_NOT_INITIALIZED, ⟨0, 2, false⟩, 3, 4, []⟩ :=
  dht22_read_not_initialized_no_hw ⟨0, 2, false⟩ (envOfFrame 1 144 0 200 89 0 0) 3 4 rfl

/-- Claim C9: `dht22_init` returns `DHT22_OK` for every pin, stores the
pin, clears the pacing timestamp (the `NeverRead` encoding), and sets the
initialized flag. -/
theorem dht22_init_establishes_state (pin : Nat) (st : Dht22State) :
    (dht22_init pin st).1 = DHT22_OK ∧
    (dht22_init pin st).2.1.pin = pin ∧
    (dht22_init pin st).2.1.last_read_time_ms = 0 ∧
    (dht22_init pin st).2.1.initialized = true :=
  ⟨rfl, rfl, rfl, rfl⟩

/-- Claim C10: the humidity value written by the conversion is always
nonnegative, so the humidity-below-zero branch of the range check never
fires: whenever the conversion reports `DHT22_ERROR_INVALID_DATA`, the
cause is humidity above 100 or temperature out of [-40, 80]. -/
theorem dht22_humidity_nonneg_branch_unreachable (data : List Nat) (t h : ℚ) :
    0 ≤ (dht22_convert_data data t h).2.2 ∧
    ((dht22_convert_data data t h).1 = DHT22_ERROR_INVALID_DATA →
      (dht22_convert_data data t h).2.2 > 100 ∨
      (dht22_convert_data data t h).2.1 < -40 ∨
      (dht22_convert_data data t h).2.1 > 80) := by
  have hnn : 0 ≤ (dht22_convert_data data t h).2.2 := by
    rw [convert_humidity_eq]
    positivity
  refine ⟨hnn, fun hinv => ?_⟩
  have hP := (convert_status_iff data t h).1.mp hinv
  rcases hP with hP | hP | hP | hP
  · exact absurd hP (by linarith)
  · exact Or.inl hP
  · exact Or.inr (Or.inl hP)
  · exact Or.inr (Or.inr hP)

/-- Witness for claim C10 at the out-of-range frame 04 00 00 00 04
(humidity 102.4): the implication's hypothesis is discharged concretely. -/
theorem dht22_humidity_nonneg_branch_unreachable_witness :
    0 ≤ (dht22_convert_data [4, 0, 0, 0, 4] 0 0).2.2 ∧
    ((dht22_convert_data [4, 0, 0, 0, 4] 0 0).2.2 > 100 ∨
     (dht22_convert_data [4, 0, 0, 0, 4] 0 0).2.1 < -40 ∨
     (dht22_convert_data [4, 0, 0, 0, 4] 0 0).2.1 > 80) :=
  ⟨(dht22_humidity_nonneg_branch_unreachable [4, 0, 0, 0, 4] 0 0).1,
   (dht22_humidity_nonneg_branch_unreachable [4, 0, 0, 0, 4] 0 0).2
     (by simp [dht22_convert_data, DHT22_ERROR_INVALID_DATA]; norm_num)⟩

/-- Claim C3: for every frame passing checksum and range validation, the
conversion computes humidity = (256*b0 + b1)/10 and temperature =
±(256*(b2 mod 128) + b3)/10, negative exactly when bit 7 of byte 2 is
set; on the example frame 01 90 00 C8 59 it yields humidity 40, 
temperature 20 and `DHT22_OK`. -/
theorem dht22_convert_scaling_and_sign :
    (∀ b0 b1 b2 b3 b4 t h, b0 < 256 → b1 < 256 → b2 < 256 → b3 < 256 → b4 < 256 →
      dht22_verify_checksum [b0, b1, b2, b3, b4] = DHT22_OK →
      (dht22_convert_data [b0, b1, b2, b3, b4] t h).1 = DHT22_OK →
      (dht22_convert_data [b0, b1, b2, b3, b4] t h).2.2 =
          humidityOfFrame [b0, b1, b2, b3, b4] ∧
        (dht22_convert_data [b0, b1, b2, b3, b4] t h).2.1 =
          temperatureOfFrame [b0, b1, b2, b3, b4]) ∧
    dht22_convert_data [1, 144, 0, 200, 89] 0 0 = (DHT22_OK, 20, 40) := by
  constructor
  · intro b0 b1 b2 b3 b4 t h _ hb1 hb2 hb3 _ _ _
    exact convert_eq_formula [b0, b1, b2, b3, b4] t h hb1 hb2 hb3
  · simp [dht22_convert_data, DHT22_OK]
    norm_num

/-- Witness for claim C3 at the spec's example frame 01 90 00 C8 59. -/
theorem dht22_convert_scaling_and_sign_witness :
    (dht22_convert_data [1, 144, 0, 200, 89] 3 4).2.2 =
        humidityOfFrame [1, 144, 0, 200, 89] ∧
      (dht22_convert_data [1, 144, 0, 200, 89] 3 4).2.1 =
        temperatureOfFrame [1, 144, 0, 200, 89] :=
  dht22_convert_scaling_and_sign.1 1 144 0 200 89 3 4 (by norm_num) (by norm_num)
    (by norm_num) (by norm_num) (by norm_num) (by decide)
    (by simp [dht22_convert_data, DHT22_OK]; norm_num)

/-- Claim C6: the bitstream decoder sets bit 7 − (i mod 8) of byte i/8
exactly when the i-th high pulse strictly exceeds the 50 µs threshold;
28 µs decodes to 0, 70 µs to 1, and exactly 50 µs to 0. -/
theorem dht22_bit_decoding_threshold (pin : Nat) (env : Nat → BitOutcome)
    (d : Nat → Nat) (henv : ∀ j, env j = .pulse (d j)) :
    (∀ i, i < 40 →
      ((dht22_read_data pin env [0, 0, 0, 0, 0]).2.1.getD (i / 8) 0).testBit (7 - i % 8) =
        decide (DHT22_BIT_THRESHOLD < d i)) ∧
    (∀ i, i < 40 → d i = 28 →
      ((dht22_read_data pin env [0, 0, 0, 0, 0]).2.1.getD (i / 8) 0).testBit (7 - i % 8) =
        false) ∧
    (∀ i, i < 40 → d i = 70 →
      ((dht22_read_data pin env [0, 0, 0, 0, 0]).2.1.getD (i / 8) 0).testBit (7 - i % 8) =
        true) ∧
    (∀ i, i < 40 → d i = 50 →
      ((dht22_read_data pin env [0, 0, 0, 0, 0]).2.1.getD (i / 8) 0).testBit (7 - i % 8) =
        false) := by
  obtain ⟨_, _, _, hbits⟩ := dht22_read_data_spec pin env d henv
  have hmain : ∀ i, i < 40 →
      ((dht22_read_data pin env [0, 0, 0, 0, 0]).2.1.getD (i / 8) 0).testBit (7 - i % 8) =
        decide (DHT22_BIT_THRESHOLD < d i) := by
    intro i hi
    have := hbits i hi
    unfold frameBit at this
    exact this
  refine ⟨hmain, fun i hi hd => ?_, fun i hi hd => ?_, fun i hi hd => ?_⟩ <;>
    rw [hmain i hi, hd] <;> decide

/-- Witness for claim C6 on a pulse stream holding 70 µs, 50 µs and 28 µs
pulses. -/
theorem dht22_bit_decoding_threshold_witness :
    (∀ i, i < 40 →
      ((dht22_read_data 2 (fun j => .pulse (if j = 0 then 70 else if j = 1 then 50 else 28))
          [0, 0, 0, 0, 0]).2.1.getD (i / 8) 0).testBit (7 - i % 8) =
        decide (DHT22_BIT_THRESHOLD < (if i = 0 then 70 else if i = 1 then 50 else 28))) ∧
    (∀ i, i < 40 → (if i = 0 then 70 else if i = 1 then 50 else 28) = 28 →
      ((dht22_read_data 2 (fun j => .pulse (if j = 0 then 70 else if j = 1 then 50 else 28))
          [0, 0, 0, 0, 0]).2.1.getD (i / 8) 0).testBit (7 - i % 8) = false) ∧
    (∀ i, i < 40 → (if i = 0 then 70 else if i = 1 then 50 else 28) = 70 →
      ((dht22_read_data 2 (fun j => .pulse (if j = 0 then 70 else if j = 1 then 50 else 28))
          [0, 0, 0, 0, 0]).2.1.getD (i / 8) 0).testBit (7 - i % 8) = true) ∧
    (∀ i, i < 40 → (if i = 0 then 70 else if i = 1 then 50 else 28) = 50 →
      ((dht22_read_data 2 (fun j => .pulse (if j = 0 then 70 else if j = 1 then 50 else 28))
          [0, 0, 0, 0, 0]).2.1.getD (i / 8) 0).testBit (7 - i % 8) = false) :=
  dht22_bit_decoding_threshold 2
    (fun j => .pulse (if j = 0 then 70 else if j = 1 then 50 else 28))
    (fun j => if j = 0 then 70 else if j = 1 then 50 else 28) (fun j => rfl)

/-- Claim C1 is falsified by the code: on the checksum-valid but
out-of-range frame 04 00 00 00 04 (humidity raw 0x0400 = 102.4 %), the
read returns `DHT22_ERROR_INVALID_DATA` and yet the caller's humidity
slot, 0 before the call, now holds 102.4: the conversion writes the
output slots before the range check. -/
theorem dht22_read_invalid_data_overwrites_output :
    (dht22_read ⟨0, 2, true⟩ (envOfFrame 4 0 0 0 4 5000 5030) 0 0).status =
        DHT22_ERROR_INVALID_DATA ∧
    (dht22_read ⟨0, 2, true⟩ (envOfFrame 4 0 0 0 4 5000 5030) 0 0).humidity = 512 / 5 ∧
    (512 / 5 : ℚ) ≠ 0 := by
  obtain ⟨hok, hdat⟩ := dht22_read_data_captures 2 4 0 0 0 4 (by norm_num) (by norm_num)
    (by norm_num) (by norm_num) (by norm_num)
  obtain ⟨hst, hstat, htemp, hhum⟩ := dht22_read_capture_ok ⟨0, 2, true⟩
    (envOfFrame 4 0 0 0 4 5000 5030) 0 0 rfl rfl rfl rfl hok
  rw [show (⟨0, 2, true⟩ : Dht22State).pin = 2 from rfl, envOfFrame_bits, hdat]
    at hstat hhum
  have hVOK : ¬(dht22_verify_checksum [4, 0, 0, 0, 4] ≠ DHT22_OK) := by decide
  rw [if_neg hVOK] at hstat hhum
  refine ⟨?_, ?_, by norm_num⟩
  · rw [hstat]
    simp [dht22_convert_data, DHT22_ERROR_INVALID_DATA]
    norm_num
  · rw [hhum]
    simp [dht22_convert_data]
    norm_num

/-- Claim C2: with the driver initialized, the pacing timestamp is set to
the post-capture clock sample exactly when handshake and the full 40-bit
capture succeed — regardless of any later checksum or range failure — and
is left unchanged when any handshake or bit edge wait times out. -/
theorem dht22_read_timestamp_update_policy (st : Dht22State) (env : Dht22Env)
    (t h : ℚ) (hinit : st.initialized = true) :
    ((env.ack0 = true ∧ env.ack1 = true ∧ env.ack2 = true) →
      (∀ j, j < 40 → (env.bits j).isPulse = true) →
      (dht22_read st env t h).state.last_read_time_ms = env.post_time_ms % 2 ^ 32) ∧
    ((env.ack0 = false ∨ env.ack1 = false ∨ env.ack2 = false) →
      (dht22_read st env t h).state = st ∧
      (dht22_read st env t h).status = DHT22_ERROR_TIMEOUT) ∧
    ((env.ack0 = true ∧ env.ack1 = true ∧ env.ack2 = true) →
      (∃ j, j < 40 ∧ (env.bits j).isPulse = false) →
      (dht22_read st env t h).state = st ∧
      (dht22_read st env t h).status = DHT22_ERROR_TIMEOUT) := by
  refine ⟨?_, ?_, ?_⟩
  · rintro ⟨ha0, ha1, ha2⟩ hp
    have hok : (dht22_read_data st.pin env.bits [0, 0, 0, 0, 0]).1 = DHT22_OK :=
      dht22_read_data_go_ok st.pin env.bits 40 0 [0, 0, 0, 0, 0] []
        (fun j hj hj' => hp j (by omega))
    obtain ⟨hst, _, _, _⟩ := dht22_read_capture_ok st env t h hinit ha0 ha1 ha2 hok
    rw [hst]
  · intro hack
    obtain ⟨hs, hst, _, _⟩ := dht22_read_ack_timeout st env t h hinit hack
    exact ⟨hst, hs⟩
  · rintro ⟨ha0, ha1, ha2⟩ ⟨j, hj, hjp⟩
    have htm : (dht22_read_data st.pin env.bits [0, 0, 0, 0, 0]).1 = DHT22_ERROR_TIMEOUT :=
      dht22_read_data_go_timeout st.pin env.bits 40 0 [0, 0, 0, 0, 0] []
        ⟨j, by omega, by omega, hjp⟩
    have hne : (dht22_read_data st.pin env.bits [0, 0, 0, 0, 0]).1 ≠ DHT22_OK := by
      rw [htm]; decide
    obtain ⟨hs, hst, _, _⟩ := dht22_read_capture_fail st env t h hinit ha0 ha1 ha2 hne
    exact ⟨hst, by rw [hs, htm]⟩

/-- Witness for claim C2: a captured frame with a bad checksum (04 00 00
00 05) still advances the pacing timestamp to the post-capture time. -/
theorem dht22_read_timestamp_update_policy_witness :
    (dht22_read ⟨0, 2, true⟩ (envOfFrame 4 0 0 0 5 100 2500) 0 0).state.last_read_time_ms =
      2500 % 2 ^ 32 :=
  (dht22_read_timestamp_update_policy ⟨0, 2, true⟩ (envOfFrame 4 0 0 0 5 100 2500) 0 0
    rfl).1 ⟨rfl, rfl, rfl⟩ (fun j hj => rfl)

/-- Claim C4: for every captured 5-byte frame, the read reports
`DHT22_ERROR_CHECKSUM` iff byte 4 differs from the mod-256 sum of bytes
0..3, and when it does, the conversion is not attempted: both caller
slots keep their prior values. -/
theorem dht22_read_checksum_error_iff (st : Dht22State) (entry post : Nat)
    (t h : ℚ) (b0 b1 b2 b3 b4 : Nat)
    (h0 : b0 < 256) (h1 : b1 < 256) (h2 : b2 < 256) (h3 : b3 < 256) (h4 : b4 < 256)
    (hinit : st.initialized = true) :
    ((dht22_read st (envOfFrame b0 b1 b2 b3 b4 entry post) t h).status =
        DHT22_ERROR_CHECKSUM ↔ b4 ≠ (b0 + b1 + b2 + b3) % 256) ∧
    ((dht22_read st (envOfFrame b0 b1 b2 b3 b4 entry post) t h).status =
        DHT22_ERROR_CHECKSUM →
      (dht22_read st (envOfFrame b0 b1 b2 b3 b4 entry post) t h).temperature = t ∧
      (dht22_read st (envOfFrame b0 b1 b2 b3 b4 entry post) t h).humidity = h) := by
  obtain ⟨hok, hdat⟩ := dht22_read_data_captures st.pin b0 b1 b2 b3 b4 h0 h1 h2 h3 h4
  obtain ⟨hst, hstat, htemp, hhum⟩ := dht22_read_capture_ok st
    (envOfFrame b0 b1 b2 b3 b4 entry post) t h hinit rfl rfl rfl hok
  rw [envOfFrame_bits, hdat] at hstat htemp hhum
  have hv : dht22_verify_checksum [b0, b1, b2, b3, b4] =
      (if (b0 + b1 + b2 + b3) % 256 ≠ b4 then DHT22_ERROR_CHECKSUM else DHT22_OK) := rfl
  by_cases hcs : (b0 + b1 + b2 + b3) % 256 = b4
  · have hVOK : dht22_verify_checksum [b0, b1, b2, b3, b4] = DHT22_OK := by
      rw [hv, if_neg (fun hne => hne hcs)]
    rw [hVOK] at hstat
    rw [if_neg (by simp [DHT22_OK])] at hstat
    have hne := convert_status_ne_checksum [b0, b1, b2, b3, b4] t h
    rw [← hstat] at hne
    constructor
    · constructor
      · intro habs; exact absurd habs hne
      · intro hb4; exact absurd hcs.symm hb4
    · intro habs; exact absurd habs hne
  · have hVCS : dht22_verify_checksum [b0, b1, b2, b3, b4] = DHT22_ERROR_CHECKSUM := by
      rw [hv, if_pos hcs]
    rw [hVCS] at hstat htemp hhum
    rw [if_pos (by simp [DHT22_OK, DHT22_ERROR_CHECKSUM])] at hstat htemp hhum
    constructor
    · constructor
      · intro _; exact fun hb4 => hcs hb4.symm
      · intro _; exact hstat
    · intro _; exact ⟨htemp, hhum⟩

/-- Witness for claim C4 on the corrupted frame 01 02 03 04 with declared
checksum 0: the read reports a checksum error and keeps both slots. -/
theorem dht22_read_checksum_error_iff_witness :
    ((dht22_read ⟨0, 2, true⟩ (envOfFrame 1 2 3 4 0 50 90) 5 6).status =
        DHT22_ERROR_CHECKSUM ↔ (0 : Nat) ≠ (1 + 2 + 3 + 4) % 256) ∧
    ((dht22_read ⟨0, 2, true⟩ (envOfFrame 1 2 3 4 0 50 90) 5 6).status =
        DHT22_ERROR_CHECKSUM →
      (dht22_read ⟨0, 2, true⟩ (envOfFrame 1 2 3 4 0 50 90) 5 6).temperature = 5 ∧
      (dht22_read ⟨0, 2, true⟩ (envOfFrame 1 2 3 4 0 50 90) 5 6).humidity = 6) :=
  dht22_read_checksum_error_iff ⟨0, 2, true⟩ 50 90 5 6 1 2 3 4 0
    (by norm_num) (by norm_num) (by norm_num) (by norm_num) (by norm_num) rfl

/-- Claim C5: among captured checksum-valid frames, a converted humidity
outside [0, 100] or temperature outside [-40, 80] makes the read report
`DHT22_ERROR_INVALID_DATA`, while values inside both ranges make it
report `DHT22_OK`. -/
theorem dht22_read_range_validation (st : Dht22State) (entry post : Nat)
    (t h : ℚ) (b0 b1 b2 b3 b4 : Nat)
    (h0 : b0 < 256) (h1 : b1 < 256) (h2 : b2 < 256) (h3 : b3 < 256) (h4 : b4 < 256)
    (hinit : st.initialized = true) (hsum : b4 = (b0 + b1 + b2 + b3) % 256) :
    ((humidityOfFrame [b0, b1, b2, b3, b4] < 0 ∨
      humidityOfFrame [b0, b1, b2, b3, b4] > 100 ∨
      temperatureOfFrame [b0, b1, b2, b3, b4] < -40 ∨
      temperatureOfFrame [b0, b1, b2, b3, b4] > 80) →
      (dht22_read st (envOfFrame b0 b1 b2 b3 b4 entry post) t h).status =
        DHT22_ERROR_INVALID_DATA) ∧
    ((0 ≤ humidityOfFrame [b0, b1, b2, b3, b4] ∧
      humidityOfFrame [b0, b1, b2, b3, b4] ≤ 100 ∧
      -40 ≤ temperatureOfFrame [b0, b1, b2, b3, b4] ∧
      temperatureOfFrame [b0, b1, b2, b3, b4] ≤ 80) →
      (dht22_read st (envOfFrame b0 b1 b2 b3 b4 entry post) t h).status = DHT22_OK) := by
  obtain ⟨hok, hdat⟩ := dht22_read_data_captures st.pin b0 b1 b2 b3 b4 h0 h1 h2 h3 h4
  obtain ⟨hst, hstat, htemp, hhum⟩ := dht22_read_capture_ok st
    (envOfFrame b0 b1 b2 b3 b4 entry post) t h hinit rfl rfl rfl hok
  rw [envOfFrame_bits, hdat] at hstat
  have hv : dht22_verify_checksum [b0, b1, b2, b3, b4] =
      (if (b0 + b1 + b2 + b3) % 256 ≠ b4 then DHT22_ERROR_CHECKSUM else DHT22_OK) := rfl
  have hVOK : dht22_verify_checksum [b0, b1, b2, b3, b4] = DHT22_OK := by
    rw [hv, if_neg (fun hne => hne hsum.symm)]
  rw [hVOK, if_neg (by simp [DHT22_OK])] at hstat
  obtain ⟨hfh, hft⟩ := convert_eq_formula [b0, b1, b2, b3, b4] t h h1 h2 h3
  obtain ⟨hiv, hko⟩ := convert_status_iff [b0, b1, b2, b3, b4] t h
  rw [hfh, hft] at hiv hko
  constructor
  · intro hout
    rw [hstat]
    exact hiv.mpr hout
  · rintro ⟨hr1, hr2, hr3, hr4⟩
    rw [hstat]
    apply hko.mpr
    rintro (hc | hc | hc | hc) <;> linarith

/-- Witness for claim C5 on the in-range frame 01 90 00 C8 59
(humidity 40 %, temperature 20 °C): the read reports `DHT22_OK`. -/
theorem dht22_read_range_validation_witness :
    (dht22_read ⟨0, 2, true⟩ (envOfFrame 1 144 0 200 89 10 20) 0 0).status = DHT22_OK :=
  (dht22_read_range_validation ⟨0, 2, true⟩ 10 20 0 0 1 144 0 200 89
    (by norm_num) (by norm_num) (by norm_num) (by norm_num) (by norm_num) rfl
    (by decide)).2
    (by norm_num [humidityOfFrame, temperatureOfFrame])

/-- Claim C7: the pacing gate: a `NeverRead` driver starts the exchange
at once; otherwise an elapsed time of at least 2000 ms starts at once,
and a smaller elapsed time blocks for exactly `2000 − elapsed`
milliseconds before the first start-signal edge. -/
theorem dht22_pacing_gate_delay (st : Dht22State) (env : Dht22Env) (t h : ℚ)
    (hinit : st.initialized = true) :
    (st.last_read_time_ms = 0 →
      ∃ rest, (dht22_read st env t h).trace = HwEvent.setDir st.pin true :: rest) ∧
    (st.last_read_time_ms ≠ 0 →
      DHT22_MIN_INTERVAL_MS ≤
        (env.entry_time_ms % 2 ^ 32 + 2 ^ 32 - st.last_read_time_ms) % 2 ^ 32 →
      ∃ rest, (dht22_read st env t h).trace = HwEvent.setDir st.pin true :: rest) ∧
    (st.last_read_time_ms ≠ 0 →
      (env.entry_time_ms % 2 ^ 32 + 2 ^ 32 - st.last_read_time_ms) % 2 ^ 32 <
        DHT22_MIN_INTERVAL_MS →
      ∃ rest, (dht22_read st env t h).trace =
        HwEvent.sleepMs (DHT22_MIN_INTERVAL_MS -
          (env.entry_time_ms % 2 ^ 32 + 2 ^ 32 - st.last_read_time_ms) % 2 ^ 32) ::
        HwEvent.setDir st.pin true :: rest) := by
  obtain ⟨rest, hrest⟩ := dht22_read_trace_shape st env t h hinit
  refine ⟨?_, ?_, ?_⟩
  · intro hz
    rw [hrest, if_neg (by simp [hz])]
    exact ⟨rest, rfl⟩
  · intro hnz hge
    rw [hrest, if_neg (fun hc => absurd hge (not_le.mpr hc.1))]
    exact ⟨rest, rfl⟩
  · intro hnz hlt
    rw [hrest, if_pos ⟨hlt, hnz⟩]
    exact ⟨rest, rfl⟩

/-- Witness for claim C7: last read at 1000 ms, entry at 1500 ms: the
gate sleeps exactly 1500 ms before driving the line. -/
theorem dht22_pacing_gate_delay_witness :
    ∃ rest, (dht22_read ⟨1000, 2, true⟩ (envOfFrame 4 0 0 0 4 1500 3600) 0 0).trace =
      HwEvent.sleepMs 1500 :: HwEvent.setDir 2 true :: rest :=
  (dht22_pacing_gate_delay ⟨1000, 2, true⟩ (envOfFrame 4 0 0 0 4 1500 3600) 0 0 rfl).2.2
    (by decide) (by decide)
